import Mathlib

/-!
Verification development for the IEEE-converter service (src/app.py).

The program is a single-request document pipeline: it validates three uploads
(manuscript .md, bibliography .bib, figure archive .zip), stages them into an
ephemeral workspace directory, safely extracts the archive, creates temporary
same-directory symlinks for sibling assets, runs a five-step external tool
pipeline (pandoc, pdflatex, bibtex, pdflatex, pdflatex), and returns the
compiled PDF, destroying the workspace on every exit path.

The embedding below models the POSIX filesystem as an explicit finite state
(a list of file entries plus a list of directories), paths as lists of
components of an absolute path, and each function of app.py as a Lean
function over that state.  External collaborators are modelled as follows:

* external tool processes (pandoc, pdflatex, bibtex) are an oracle giving,
  for each of the five invocations, its exit code, captured stdout/stderr
  and the file writes it performs (subprocess.run with check=True raises
  CalledProcessError on a non-zero exit, after the process has run);
* CPython zipfile.ZipFile.extractall is modelled by its member-name
  sanitisation (drop empty, "." and ".." components, drop a leading slash)
  followed by sequential writes in member order;
* werkzeug secure_filename is an abstract parameter (a pure function
  String to String) of the handler, since only its result is used;
* pathlib semantics (Path.resolve normalisation, Path.suffix, the "/"
  join operator, relative_to) are embedded directly;
* the Flask layer (render_template, send_file) is modelled by a Response
  datatype recording exactly the data the handler passes to it; the
  environment-variable construction for the tool invocations (TEXINPUTS,
  BIBINPUTS, BSTINPUTS) is not modelled, since no claim concerns it and
  the oracle already abstracts tool behaviour.
-/

/-- Filesystem state: a list of (absolute path, content) file entries where
the most recent write is listed first, plus the set of directories created.
A path is the list of components of an absolute POSIX path. -/
structure FS where
  files : List (List String × String)
  dirs : List (List String)
deriving Repr, DecidableEq

/-- Content of the file at path p, if a file exists there. -/
def FS.lookup (fs : FS) (p : List String) : Option String :=
  (fs.files.find? (fun e => e.1 == p)).map Prod.snd

/-- Write (create or overwrite) the file at path p. -/
def FS.write (fs : FS) (p : List String) (c : String) : FS :=
  ⟨(p, c) :: fs.files, fs.dirs⟩

/-- Create the directory p (mkdir with exist_ok; ancestors are tracked only
when themselves created, which is all the handler needs). -/
def FS.mkdir (fs : FS) (p : List String) : FS :=
  ⟨fs.files, p :: fs.dirs⟩

/-- Remove the file at path p if present (Path.unlink with missing_ok). -/
def FS.unlinkFile (fs : FS) (p : List String) : FS :=
  ⟨fs.files.filter (fun e => !(e.1 == p)), fs.dirs⟩

/-- Remove the whole subtree rooted at d, directory d included
(shutil.rmtree, as performed by TemporaryDirectory on scope exit). -/
def FS.removeTree (fs : FS) (d : List String) : FS :=
  ⟨fs.files.filter (fun e => !(d.isPrefixOf e.1)),
   fs.dirs.filter (fun p => !(d.isPrefixOf p))⟩

/-- Path.exists: true when a file or a directory is present at p. -/
def FS.pathExists (fs : FS) (p : List String) : Bool :=
  (fs.lookup p).isSome || fs.dirs.contains p

/-- First occurrence of each element, in order (a directory listing holds
each name once). -/
def dedupKeepFirst (l : List String) : List String :=
  l.foldl (fun acc x => if x ∈ acc then acc else acc ++ [x]) []

/-- Names of the entries directly inside directory d (Path.iterdir),
derived from the files and directories below d; each name once. -/
def FS.childNames (fs : FS) (d : List String) : List String :=
  dedupKeepFirst ((fs.files.map Prod.fst ++ fs.dirs).filterMap
    (fun p => if d.isPrefixOf p && decide (d.length < p.length)
              then p[d.length]? else none))

/-- Names of the files directly inside directory d, each once. -/
def FS.filesIn (fs : FS) (d : List String) : List String :=
  dedupKeepFirst (fs.files.filterMap
    (fun e => if d.isPrefixOf e.1 && (e.1.length == d.length + 1)
              then e.1.getLast? else none))

/-- Member of a zip archive: the stored name split into components, with a
flag for a leading slash (absolute name) and for a directory member, and the
member content. -/
structure ZipEntry where
  filename : List String
  isAbs : Bool := false
  isDir : Bool := false
  content : String := ""
deriving Repr, DecidableEq

/-- Path.resolve on a pure absolute path: drop empty and "." components and
let ".." remove the preceding component (at the root it stays at the root). -/
def normalizeParts (parts : List String) : List String :=
  parts.foldl
    (fun acc x =>
      if x = "" ∨ x = "." then acc
      else if x = ".." then acc.dropLast
      else acc ++ [x]) []

/-- Member-name sanitisation performed by zipfile extraction: empty, "."
and ".." components are dropped (and with them any leading slash). -/
def sanitizeParts (parts : List String) : List String :=
  parts.filter (fun x => !(x == "" || x == "." || x == ".."))

/-- Resolved absolute destination of a member: (dest / member.filename)
followed by resolve(); an absolute member name replaces dest entirely. -/
def memberResolved (dest : List String) (e : ZipEntry) : List String :=
  normalizeParts (if e.isAbs then e.filename else dest ++ e.filename)

/-- The check made for each member of the archive: member_path.relative_to
(dest.resolve()) succeeds exactly when the resolved destination directory is
a prefix of the resolved member path. -/
def memberSafe (dest : List String) (e : ZipEntry) : Bool :=
  (normalizeParts dest).isPrefixOf (memberResolved dest e)

/-- Target path a member is extracted to (dest joined with the sanitised
member name). -/
def extractTarget (dest : List String) (e : ZipEntry) : List String :=
  dest ++ sanitizeParts e.filename

/-- ZipFile.extractall: extract every member in order into dest; a directory
member becomes a directory, a file member a file write (a later member
overwrites an earlier one with the same target). -/
def extractAll (entries : List ZipEntry) (dest : List String) (fs : FS) : FS :=
  entries.foldl
    (fun acc e =>
      if e.isDir then acc.mkdir (extractTarget dest e)
      else acc.write (extractTarget dest e) e.content) fs

/-- Whitespace test matching str.strip of Python for its default set. -/
def isPyWhitespace (c : Char) : Bool :=
  c == ' ' || c == '\t' || c == '\n' || c == '\r' ||
  c == Char.ofNat 11 || c == Char.ofNat 12

/-- str.strip: remove leading and trailing whitespace. -/
def stripStr (s : String) : String :=
  String.mk (((s.toList.dropWhile isPyWhitespace).reverse.dropWhile
    isPyWhitespace).reverse)

/-- Recursion core of str.replace: scan left to right, replacing each
non-overlapping occurrence of pat; the fuel argument bounds the recursion by
the input length (pat is nonempty at every use site, so the fuel never runs
out before the scan ends). -/
def replaceFuel (pat repl : List Char) : Nat → List Char → List Char
  | 0, cs => cs
  | _ + 1, [] => []
  | n + 1, c :: rest =>
      if pat.isPrefixOf (c :: rest) then
        repl ++ replaceFuel pat repl n (List.drop (pat.length - 1) rest)
      else c :: replaceFuel pat repl n rest

/-- str.replace of Python on whole strings. -/
def replaceStr (s pat repl : String) : String :=
  String.mk (replaceFuel pat.toList repl.toList s.toList.length s.toList)

example : replaceStr "a \\citep{x} b \\citep{y}" "\\citep" "\\cite" =
    "a \\cite{x} b \\cite{y}" := by rfl

/-- str.endswith on whole strings. -/
def strEndsWith (s suf : String) : Bool :=
  suf.toList.isSuffixOf s.toList

/-- Errors the handler can raise; each corresponds to one exception raised
in app.py and caught by the except clause of index. -/
inductive Err where
  | missingAsset (name : String)
  | pathTraversal
  | readFailure (path : String)
  | toolFailure (cmd : List String) (exitCode : Nat) (stdout : String) (stderr : String)
  | artifactMissing
deriving Repr, DecidableEq

/-- Text of str(exc) for each error, as rendered into the error page. -/
def Err.message : Err → String
  | .missingAsset n => "Missing required asset: " ++ n
  | .pathTraversal => "Zip file contains an unsafe path."
  | .readFailure p => "No such file or directory: " ++ p
  | .toolFailure cmd code _ _ =>
      "Command " ++ String.intercalate " " cmd ++
      " returned non-zero exit status " ++ toString code ++ "."
  | .artifactMissing => "PDF was not generated."

/-- Diagnostic log text the except clause of index builds: for a
CalledProcessError the captured stdout plus stderr, stripped; empty
otherwise. -/
def Err.diagnosticLog : Err → String
  | .toolFailure _ _ out err =>
      stripStr (out ++ (if err = "" then "" else "\n" ++ err))
  | _ => ""

/-- _safe_extract_zip: first every member of the archive is checked against
the resolved destination, and only if all pass is anything extracted; a
failing member raises ValueError before any write, so the filesystem is
returned unchanged on the error branch. -/
def safeExtractZip (entries : List ZipEntry) (dest : List String) (fs : FS) :
    Except (Err × FS) FS :=
  if entries.all (memberSafe dest) then .ok (extractAll entries dest fs)
  else .error (.pathTraversal, fs)

example :
    safeExtractZip [⟨["a", "b.png"], false, false, "x"⟩] ["d"] ⟨[], []⟩ =
      .ok ⟨[(["d", "a", "b.png"], "x")], []⟩ := by rfl

example :
    safeExtractZip [⟨["..", "evil"], false, false, "x"⟩] ["d"] ⟨[], []⟩ =
      .error (.pathTraversal, ⟨[], []⟩) := by rfl

/-- Path.suffix of a file name: the part of the name from its last dot on,
provided that dot is neither the first nor the last character; otherwise
the empty string (so a bare dotfile name such as ".md" has no suffix). -/
def pathSuffix (name : String) : String :=
  let cs := name.toList
  match cs.reverse.findIdx? (fun c => c == '.') with
  | none => ""
  | some j =>
      let i := cs.length - 1 - j
      if 0 < i ∧ i < cs.length - 1 then String.mk (cs.drop i) else ""

example : pathSuffix "figure.png" = ".png" := by rfl
example : pathSuffix "paper.md" = ".md" := by rfl
example : pathSuffix ".md" = "" := by rfl
example : pathSuffix "archive.tar.bib" = ".bib" := by rfl
example : pathSuffix "name." = "" := by rfl

/-- Content marker recorded for a symlink created at some path, pointing at
the given target path. -/
def symlinkContent (target : List String) : String :=
  "symlink:" ++ String.intercalate "/" target

/-- Loop body of _link_paper_assets over the entries of the manuscript
directory: an entry whose suffix is .md or .bib is skipped; otherwise, if
nothing named like it exists at the workspace root, a symlink to it is
created there and recorded in the returned link list. -/
def linkLoop (srcDir workDir : List String) :
    List String → FS → List (List String) × FS
  | [], fs => ([], fs)
  | name :: rest, fs =>
    if pathSuffix name = ".md" ∨ pathSuffix name = ".bib" then
      linkLoop srcDir workDir rest fs
    else if fs.pathExists (workDir ++ [name]) then
      linkLoop srcDir workDir rest fs
    else
      let fs1 := fs.write (workDir ++ [name]) (symlinkContent (srcDir ++ [name]))
      let r := linkLoop srcDir workDir rest fs1
      ((workDir ++ [name]) :: r.1, r.2)

/-- _link_paper_assets: nothing is linked when the source directory does not
exist; otherwise every entry directly inside it is processed in turn. -/
def linkPaperAssets (srcDir workDir : List String) (fs : FS) :
    List (List String) × FS :=
  if fs.dirs.contains srcDir then linkLoop srcDir workDir (fs.childNames srcDir) fs
  else ([], fs)

/-- Observable outcome of one external tool process: its exit status, its
captured stdout and stderr, and the file writes it performed while running. -/
structure ToolResult where
  exitCode : Nat
  stdout : String := ""
  stderr : String := ""
  writes : List (List String × String) := []
deriving Repr

/-- Oracle fixing the behaviour of the five external tool invocations of one
pipeline run, in their invocation order. -/
structure Oracle where
  pandoc : ToolResult
  latex1 : ToolResult
  bibtex : ToolResult
  latex2 : ToolResult
  latex3 : ToolResult
deriving Repr

/-- One recorded subprocess invocation: the argument vector and the working
directory it is started in. -/
structure Invocation where
  cmd : List String
  cwd : List String
deriving Repr, DecidableEq

/-- Apply the file writes of a tool run to the filesystem, in order. -/
def applyWrites (ws : List (List String × String)) (fs : FS) : FS :=
  ws.foldl (fun acc w => acc.write w.1 w.2) fs

/-- Rendering of an absolute path as the string handed to a subprocess. -/
def renderAbs (p : List String) : String :=
  String.intercalate "/" ("" :: p)

/-- Argument vector of the pandoc invocation built by _run_conversion. -/
def pandocCmd (paperDir : List String) : List String :=
  ["pandoc", renderAbs (paperDir ++ ["paper.md"]),
   "--template", "ieee/ieee-conference.tex", "--natbib", "-s",
   "-o", "outputs/paper.tex"]

/-- Argument vector of each pdflatex invocation built by _run_conversion. -/
def latexCmd : List String :=
  ["pdflatex", "-interaction=nonstopmode", "-halt-on-error",
   "-output-directory", "outputs", "outputs/paper.tex"]

/-- Argument vector of the bibtex invocation built by _run_conversion. -/
def bibtexCmd : List String :=
  ["bibtex", "outputs/paper"]

/-- Path of the intermediate TeX file inside the output subtree. -/
def texPath (work : List String) : List String :=
  work ++ ["outputs", "paper.tex"]

/-- Path of the final artifact inside the output subtree. -/
def pdfPath (work : List String) : List String :=
  work ++ ["outputs", "paper.pdf"]

/-- Filesystem after the output directory is created and pandoc has run:
the state in which _run_conversion reads back the generated TeX file. -/
def afterPandocFS (o : Oracle) (work : List String) (fs : FS) : FS :=
  applyWrites o.pandoc.writes (fs.mkdir (work ++ ["outputs"]))

/-- Deletion of stale build byproducts in the output subtree. -/
def cleanByproducts (outDir : List String) (fs : FS) : FS :=
  ["aux", "bbl", "blg", "out", "log", "pdf"].foldl
    (fun acc ext => acc.unlinkFile (outDir ++ ["paper." ++ ext])) fs

/-- Copy of every .bib file in the manuscript directory into the output
subtree, as _run_conversion performs before the first compile pass. -/
def copyBibs (paperDir outDir : List String) (fs : FS) : FS :=
  ((fs.filesIn paperDir).filter (fun n => strEndsWith n ".bib")).foldl
    (fun acc n =>
      match fs.lookup (paperDir ++ [n]) with
      | some c => acc.write (outDir ++ [n]) c
      | none => acc) fs

/-- _run_conversion: creates the output directory, then performs in order
pandoc, the citep-to-cite rewrite of the generated TeX file, the byproduct
deletion, the bibliography staging, pdflatex pass 1, bibtex, pdflatex pass 2
and pdflatex pass 3.  Each _run call uses check=True, so the first non-zero
exit raises CalledProcessError right there and nothing later runs.  Returns
the outcome together with the trace of subprocess invocations started. -/
def runConversion (o : Oracle) (work paperDir : List String) (fs : FS) :
    Except (Err × FS) FS × List Invocation :=
  let outDir := work ++ ["outputs"]
  let pInv : Invocation := ⟨pandocCmd paperDir, work⟩
  let fs1 := afterPandocFS o work fs
  if o.pandoc.exitCode = 0 then
    match fs1.lookup (texPath work) with
    | none => (.error (.readFailure (renderAbs (texPath work)), fs1), [pInv])
    | some text =>
      let fs2 := fs1.write (texPath work) (replaceStr text "\\citep" "\\cite")
      let fs3 := cleanByproducts outDir fs2
      let fs4 := copyBibs paperDir outDir fs3
      let l1Inv : Invocation := ⟨latexCmd, work⟩
      let fs5 := applyWrites o.latex1.writes fs4
      if o.latex1.exitCode = 0 then
        let bInv : Invocation := ⟨bibtexCmd, work⟩
        let fs6 := applyWrites o.bibtex.writes fs5
        if o.bibtex.exitCode = 0 then
          let l2Inv : Invocation := ⟨latexCmd, work⟩
          let fs7 := applyWrites o.latex2.writes fs6
          if o.latex2.exitCode = 0 then
            let l3Inv : Invocation := ⟨latexCmd, work⟩
            let fs8 := applyWrites o.latex3.writes fs7
            if o.latex3.exitCode = 0 then
              (.ok fs8, [pInv, l1Inv, bInv, l2Inv, l3Inv])
            else
              (.error (.toolFailure latexCmd o.latex3.exitCode o.latex3.stdout
                 o.latex3.stderr, fs8), [pInv, l1Inv, bInv, l2Inv, l3Inv])
          else
            (.error (.toolFailure latexCmd o.latex2.exitCode o.latex2.stdout
               o.latex2.stderr, fs7), [pInv, l1Inv, bInv, l2Inv])
        else
          (.error (.toolFailure bibtexCmd o.bibtex.exitCode o.bibtex.stdout
             o.bibtex.stderr, fs6), [pInv, l1Inv, bInv])
      else
        (.error (.toolFailure latexCmd o.latex1.exitCode o.latex1.stdout
           o.latex1.stderr, fs5), [pInv, l1Inv])
  else
    (.error (.toolFailure (pandocCmd paperDir) o.pandoc.exitCode
       o.pandoc.stdout o.pandoc.stderr, fs1), [pInv])

/-- Removal of every link of the staged link set, in order. -/
def unlinkAll (links : List (List String)) (fs : FS) : FS :=
  links.foldl (fun acc l => acc.unlinkFile l) fs

/-- The pipeline step of index together with its finally clause: whatever
the outcome of _run_conversion, each staged link is unlinked afterwards. -/
def runWithLinkCleanup (o : Oracle) (work paperDir : List String)
    (links : List (List String)) (fs : FS) : Except (Err × FS) FS :=
  match (runConversion o work paperDir fs).1 with
  | .ok fs2 => .ok (unlinkAll links fs2)
  | .error (e, fs2) => .error (e, unlinkAll links fs2)

/-- Characters of a filename after its last dot (rsplit at the last dot). -/
def extAfterLastDot (s : String) : String :=
  String.mk ((s.toList.reverse.takeWhile (fun c => c != '.')).reverse)

/-- Lowercasing of a string, character by character. -/
def lowerStr (s : String) : String :=
  String.mk (s.toList.map Char.toLower)

/-- _allowed: the filename contains a dot and the lowercased part after the
last dot is one of the allowed extensions. -/
def allowed (filename : String) (exts : List String) : Bool :=
  filename.toList.contains '.' && exts.contains (lowerStr (extAfterLastDot filename))

example : allowed "paper.md" ["md"] = true := by rfl
example : allowed "paper.MD" ["md"] = true := by rfl
example : allowed "papermd" ["md"] = false := by rfl
example : allowed "paper.md.txt" ["md"] = false := by rfl

/-- One uploaded file: its client-supplied filename and its bytes. -/
structure Upload where
  filename : String
  content : String
deriving Repr, DecidableEq

/-- The uploaded figure archive: its client-supplied filename and the
members of the zip payload it carries. -/
structure ZipUpload where
  filename : String
  entries : List ZipEntry
deriving Repr, DecidableEq

/-- One HTTP request to the route: the method and the three optional file
parts of the form. -/
structure Req where
  method : String
  md_file : Option Upload
  bib_file : Option Upload
  fig_zip : Option ZipUpload
deriving Repr

/-- Response the handler produces: either the rendered page (with its
optional error message and optional diagnostic log), or a file download with
its bytes, download name and content type. -/
inductive Response where
  | page (error : Option String) (log : Option String)
  | file (bytes : String) (downloadName : String) (mimetype : String)
deriving Repr, DecidableEq

/-- The enumerated static support files copied into every workspace. -/
def ASSETS : List (List String) :=
  [["ieee", "ieee-conference.tex"],
   ["ieee", "IEEEtran.cls"],
   ["ieee", "IEEEtran.bst"],
   ["ieee", "ieee.csl"],
   ["ieee", "pandoc-csl-fix.tex"]]

/-- Loop of _copy_assets: each enumerated asset is looked up in the trusted
source tree; a missing one raises FileNotFoundError naming it, a present one
is copied to the parallel path inside the workspace. -/
def copyAssetsAux : List (List String) → List String → List String → FS →
    Except (Err × FS) FS
  | [], _, _, fs => .ok fs
  | name :: rest, appRoot, dest, fs =>
    match fs.lookup (appRoot ++ name) with
    | none => .error (.missingAsset (String.intercalate "/" name), fs)
    | some c =>
        copyAssetsAux rest appRoot dest
          ((fs.mkdir (dest ++ name.dropLast)).write (dest ++ name) c)

/-- _copy_assets over the fixed asset list. -/
def copyAssets (appRoot dest : List String) (fs : FS) : Except (Err × FS) FS :=
  copyAssetsAux ASSETS appRoot dest fs

/-- Staging of the bibliography upload (index, bibliography block): the
sanitised filename, or the fallback name library.bib when it is empty, names
the saved file; when the used name differs from library.bib the file is
additionally copied to library.bib. -/
def stageBib (sf : String → String) (bib : Upload) (paperDir : List String)
    (fs : FS) : FS :=
  let bibName := if sf bib.filename = "" then "library.bib" else sf bib.filename
  let fs1 := fs.write (paperDir ++ [bibName]) bib.content
  if bibName ≠ "library.bib" then
    fs1.write (paperDir ++ ["library.bib"]) bib.content
  else fs1

/-- Property of werkzeug secure_filename on the inputs that reach the
staging block: a filename that passed the .bib extension check ends in the
three ASCII letters of a case variant of bib after its last dot, and every
transformation secure_filename performs (NFKD normalisation with
ASCII-ignore encoding, separator replacement, whitespace joining, stripping
of characters outside letters, digits, underscore, dot and dash, and the
final strip of dots and underscores) preserves such a trailing ASCII letter
run, so the sanitised name is never empty there.  The sanitiser itself is an
abstract parameter of the handler; this predicate records the one fact about
it the staging contract relies on. -/
def sanitizerNonemptyOnBib (sf : String → String) : Prop :=
  ∀ s, allowed s ["bib"] = true → sf s ≠ ""

/-- Body of the try block of index up to and including the pipeline step and
its link cleanup: copy assets, save the manuscript as paper.md, stage the
bibliography, save the archive, safely extract it into the manuscript
directory, build the staged link set, run the pipeline and remove the links
whatever its outcome. -/
def stagePipeline (sf : String → String) (o : Oracle) (md bib : Upload)
    (zentries : List ZipEntry) (appRoot work : List String) (fs : FS) :
    Except (Err × FS) FS :=
  let paperDir := work ++ ["paperFiles"]
  match copyAssets appRoot work fs with
  | .error e => .error e
  | .ok fs1 =>
    let fs2 := fs1.write (paperDir ++ ["paper.md"]) md.content
    let fs3 := stageBib sf bib paperDir fs2
    let fs4 := fs3.write (work ++ ["figures.zip"]) "zip-archive-bytes"
    match safeExtractZip zentries paperDir fs4 with
    | .error e => .error e
    | .ok fs5 =>
      let r := linkPaperAssets paperDir work fs5
      runWithLinkCleanup o work paperDir r.1 r.2

/-- Remainder of the try block of index: after the pipeline, the artifact
must exist in the output subtree, else FileNotFoundError is raised; when it
exists its bytes are read fully into memory. -/
def tryBody (sf : String → String) (o : Oracle) (md bib : Upload)
    (zentries : List ZipEntry) (appRoot work : List String) (fs : FS) :
    Except (Err × FS) (String × FS) :=
  match stagePipeline sf o md bib zentries appRoot work fs with
  | .error e => .error e
  | .ok fs2 =>
    match fs2.lookup (pdfPath work) with
    | none => .error (.artifactMissing, fs2)
    | some b => .ok (b, fs2)

/-- The route handler index.  A GET renders the bare page.  A POST first
checks the three uploads for presence (in order manuscript, bibliography,
archive) and then for their extensions; a failed check renders the page with
the corresponding message and no workspace is ever created.  Otherwise the
ephemeral workspace directory is created (TemporaryDirectory) along with the
manuscript directory, the try body runs, and on every outcome the whole
workspace tree is removed before the response is returned: a success returns
the artifact bytes as an attachment named paper.pdf with content type
application/pdf, an error renders the page with str(exc) and the diagnostic
log. -/
def index (sf : String → String) (o : Oracle) (req : Req)
    (appRoot work : List String) (fs : FS) : Response × FS :=
  if req.method = "GET" then (.page none none, fs) else
  match req.md_file with
  | none => (.page (some "Missing .md file.") none, fs)
  | some md =>
  if md.filename = "" then (.page (some "Missing .md file.") none, fs) else
  match req.bib_file with
  | none => (.page (some "Missing .bib file.") none, fs)
  | some bib =>
  if bib.filename = "" then (.page (some "Missing .bib file.") none, fs) else
  match req.fig_zip with
  | none => (.page (some "Missing figures .zip file.") none, fs)
  | some fz =>
  if fz.filename = "" then (.page (some "Missing figures .zip file.") none, fs) else
  if allowed md.filename ["md"] = false then
    (.page (some "Markdown file must be .md.") none, fs) else
  if allowed bib.filename ["bib"] = false then
    (.page (some "Bibliography file must be .bib.") none, fs) else
  if allowed fz.filename ["zip"] = false then
    (.page (some "Figures upload must be a .zip.") none, fs) else
  let fs0 := (fs.mkdir work).mkdir (work ++ ["paperFiles"])
  match tryBody sf o md bib fz.entries appRoot work fs0 with
  | .ok (b, fs2) => (.file b "paper.pdf" "application/pdf", fs2.removeTree work)
  | .error (e, fs2) =>
      (.page (some e.message) (some e.diagnosticLog), fs2.removeTree work)

/-- Identity sanitiser used for concrete runs whose filenames are already
safe. -/
def sfId : String → String := fun s => s

/-- Trusted source tree holding the five enumerated assets. -/
def fsAssets : FS :=
  ⟨ASSETS.map (fun n => (["approot"] ++ n, "asset:" ++ String.intercalate "/" n)), []⟩

/-- Tool outcome of a silent successful run. -/
def okTool : ToolResult := ⟨0, "", "", []⟩

/-- Oracle of a run where every tool exits zero and pandoc writes the
intermediate TeX file (but no pdf ever appears). -/
def oracleAllOk : Oracle :=
  ⟨⟨0, "", "", [(["w", "outputs", "paper.tex"], "T \\citep{x}")]⟩,
   okTool, okTool, okTool, okTool⟩

/-- Oracle of a run where pandoc succeeds and the first compile pass fails
with diagnostic output. -/
def oracleLatex1Fails : Oracle :=
  ⟨⟨0, "", "", [(["w", "outputs", "paper.tex"], "T")]⟩,
   ⟨1, "latex out", "latex err", []⟩, okTool, okTool, okTool⟩

/-- Well-formed request carrying all three uploads. -/
def reqValid : Req :=
  ⟨"POST", some ⟨"paper.md", "MD"⟩, some ⟨"library.bib", "BIB"⟩,
   some ⟨"figs.zip", [⟨["result_plots", "a.png"], false, false, "PNG"⟩]⟩⟩

/-- The five subprocess invocations of a full pipeline run, in their strict
order: markup conversion, compile pass 1, bibliography resolution, compile
pass 2, compile pass 3 — all started in the workspace root. -/
def pipelineInvs (work paperDir : List String) : List Invocation :=
  [⟨pandocCmd paperDir, work⟩, ⟨latexCmd, work⟩, ⟨bibtexCmd, work⟩,
   ⟨latexCmd, work⟩, ⟨latexCmd, work⟩]

-- ======================================================================
-- Lemmas about the filesystem state
-- ======================================================================

theorem FS.lookup_write_self (fs : FS) (p : List String) (c : String) :
    (fs.write p c).lookup p = some c := by
  simp [FS.lookup, FS.write, List.find?_cons_of_pos]

theorem FS.lookup_write_ne (fs : FS) (p q : List String) (c : String)
    (h : q ≠ p) : (fs.write p c).lookup q = fs.lookup q := by
  have : ((p, c).1 == q) = false := by simp [h.symm]
  simp [FS.lookup, FS.write, List.find?_cons_of_neg, this]

theorem FS.lookup_mkdir (fs : FS) (d p : List String) :
    (fs.mkdir d).lookup p = fs.lookup p := rfl

theorem FS.dirs_write (fs : FS) (p : List String) (c : String) :
    (fs.write p c).dirs = fs.dirs := rfl

theorem FS.lookup_unlinkFile_self (fs : FS) (q : List String) :
    (fs.unlinkFile q).lookup q = none := by
  rcases fs with ⟨files, dirs⟩
  simp only [FS.unlinkFile, FS.lookup]
  induction files with
  | nil => simp
  | cons e rest ih =>
      by_cases h1 : e.1 = q
      · simp [List.filter_cons, h1]
      · simp [List.filter_cons, List.find?_cons, h1]

theorem FS.lookup_unlinkFile_ne (fs : FS) (q p : List String) (h : p ≠ q) :
    (fs.unlinkFile q).lookup p = fs.lookup p := by
  rcases fs with ⟨files, dirs⟩
  simp only [FS.unlinkFile, FS.lookup]
  induction files with
  | nil => simp
  | cons e rest ih =>
      by_cases h1 : e.1 = q
      · have hf : (!(e.1 == q)) = false := by simp [h1]
        have hp : (e.1 == p) = false := by
          simp only [beq_eq_false_iff_ne, ne_eq]
          exact fun hh => h (by rw [← hh, h1])
        rw [List.filter_cons, hf]
        simp only [Bool.false_eq_true, if_false]
        rw [List.find?_cons, hp]
        exact ih
      · have hf : (!(e.1 == q)) = true := by simp [h1]
        by_cases h2 : e.1 = p
        · have hp : (e.1 == p) = true := by simp [h2]
          rw [List.filter_cons, hf, if_pos rfl]
          rw [List.find?_cons, hp, List.find?_cons, hp]
        · have hp : (e.1 == p) = false := by simp [h2]
          rw [List.filter_cons, hf, if_pos rfl]
          rw [List.find?_cons, hp, List.find?_cons, hp]
          exact ih

theorem FS.lookup_removeTree (fs : FS) (d p : List String)
    (h : d.isPrefixOf p = true) : (fs.removeTree d).lookup p = none := by
  rcases fs with ⟨files, dirs⟩
  simp only [FS.removeTree, FS.lookup]
  induction files with
  | nil => simp
  | cons e rest ih =>
      by_cases h1 : e.1 = p
      · have hf : (!(d.isPrefixOf e.1)) = false := by simp [h1, h]
        rw [List.filter_cons, hf]
        simp only [Bool.false_eq_true, if_false]
        exact ih
      · by_cases h2 : d.isPrefixOf e.1
        · have hf : (!(d.isPrefixOf e.1)) = false := by simp [h2]
          rw [List.filter_cons, hf]
          simp only [Bool.false_eq_true, if_false]
          exact ih
        · have hf : (!(d.isPrefixOf e.1)) = true := by simp [h2]
          have hp : (e.1 == p) = false := by simp [h1]
          rw [List.filter_cons, hf, if_pos rfl, List.find?_cons, hp]
          exact ih

theorem FS.not_mem_dirs_removeTree (fs : FS) (d p : List String)
    (h : d.isPrefixOf p = true) : p ∉ (fs.removeTree d).dirs := by
  rcases fs with ⟨files, dirs⟩
  simp only [FS.removeTree]
  intro hmem
  have := List.of_mem_filter hmem
  have heq := List.mem_filter.mp hmem
  simp [h] at this

theorem lookup_unlinkAll_none (links : List (List String)) (fs : FS)
    (p : List String) (h : fs.lookup p = none) :
    (unlinkAll links fs).lookup p = none := by
  induction links generalizing fs with
  | nil => simpa [unlinkAll] using h
  | cons x rest ih =>
      simp only [unlinkAll, List.foldl_cons] at *
      apply ih
      by_cases hx : p = x
      · subst hx; exact FS.lookup_unlinkFile_self fs p
      · rw [FS.lookup_unlinkFile_ne fs x p hx]; exact h

theorem lookup_unlinkAll_of_mem (links : List (List String)) (fs : FS)
    (l : List String) (h : l ∈ links) : (unlinkAll links fs).lookup l = none := by
  induction links generalizing fs with
  | nil => cases h
  | cons x rest ih =>
      simp only [unlinkAll, List.foldl_cons]
      rcases List.mem_cons.mp h with h1 | h1
      · subst h1
        apply lookup_unlinkAll_none
        exact FS.lookup_unlinkFile_self fs l
      · exact ih _ h1

-- ======================================================================
-- C1: a traversal entry fails the whole extraction before any write
-- ======================================================================

/-- C1: for every archive containing at least one entry whose resolved
absolute destination path lies outside the resolved destination directory,
extraction fails with the PathTraversal error and the filesystem is returned
exactly as it was: the per-entry check precedes any extraction, so nothing
observable is extracted. -/
theorem c1_traversal_fails_all_or_nothing (entries : List ZipEntry)
    (dest : List String) (fs : FS)
    (h : ∃ e ∈ entries, memberSafe dest e = false) :
    safeExtractZip entries dest fs = .error (.pathTraversal, fs) := by
  obtain ⟨e, he, hbad⟩ := h
  have hall : entries.all (memberSafe dest) = false := by
    by_contra hc
    have : entries.all (memberSafe dest) = true := by
      cases hh : entries.all (memberSafe dest)
      · exact absurd hh hc
      · rfl
    have := (List.all_eq_true.mp this) e he
    rw [hbad] at this
    cases this
  simp [safeExtractZip, hall]

/-- Witness for C1 at a concrete traversal archive. -/
theorem c1_witness :
    safeExtractZip [⟨["..", "evil.txt"], false, false, "nope"⟩]
      ["tmp", "work", "paperFiles"] ⟨[], []⟩ =
      .error (.pathTraversal, ⟨[], []⟩) :=
  c1_traversal_fails_all_or_nothing _ _ _
    ⟨⟨["..", "evil.txt"], false, false, "nope"⟩, by decide, by decide⟩

-- ======================================================================
-- C8: the staged link set is removed after the pipeline step, both on
-- success and on failure
-- ======================================================================

/-- C8: every reference of the staged link set handed to the pipeline step
is absent from the filesystem immediately after that step returns, on both
its exit paths (pipeline success and pipeline error), by the finally clause
that unlinks each link, independently of workspace destruction. -/
theorem c8_links_removed_after_pipeline (o : Oracle)
    (work paperDir : List String) (links : List (List String)) (fs : FS)
    (l : List String) (h : l ∈ links) :
    (match runWithLinkCleanup o work paperDir links fs with
     | .ok f => f
     | .error (_, f) => f).lookup l = none := by
  unfold runWithLinkCleanup
  rcases hr : (runConversion o work paperDir fs).1 with ⟨e, f⟩ | f
  · exact lookup_unlinkAll_of_mem links f l h
  · exact lookup_unlinkAll_of_mem links f l h

/-- Witness for C8 at a concrete link set and a failing pipeline. -/
theorem c8_witness :
    (match runWithLinkCleanup oracleLatex1Fails ["w"] ["w", "paperFiles"]
        [["w", "result_plots"]] ⟨[], []⟩ with
     | .ok f => f
     | .error (_, f) => f).lookup ["w", "result_plots"] = none :=
  c8_links_removed_after_pipeline oracleLatex1Fails ["w"] ["w", "paperFiles"]
    [["w", "result_plots"]] ⟨[], []⟩ ["w", "result_plots"] (by decide)

-- ======================================================================
-- C6: duplicate bibliography staging under sanitised and fallback names
-- ======================================================================

/-- C6: the staging block runs only after the bibliography filename passed
the .bib extension check, and on such filenames secure_filename returns a
nonempty name (sanitizerNonemptyOnBib records that werkzeug property of the
abstract sanitiser); so whenever the sanitised filename differs from the
canonical fallback name, after staging both the sanitised name and the
fallback name exist in the staged manuscript directory with identical
content, the duplicate being created under the fallback name. -/
theorem c6_both_names_present (sf : String → String) (bib : Upload)
    (paperDir : List String) (fs : FS)
    (hsf : sanitizerNonemptyOnBib sf)
    (hext : allowed bib.filename ["bib"] = true)
    (hnf : sf bib.filename ≠ "library.bib") :
    (stageBib sf bib paperDir fs).lookup (paperDir ++ [sf bib.filename]) =
      some bib.content ∧
    (stageBib sf bib paperDir fs).lookup (paperDir ++ ["library.bib"]) =
      some bib.content := by
  have hne : sf bib.filename ≠ "" := hsf bib.filename hext
  unfold stageBib
  simp only [if_neg hne, if_pos hnf, ne_eq]
  constructor
  · rw [FS.lookup_write_ne]
    · exact FS.lookup_write_self fs (paperDir ++ [sf bib.filename]) bib.content
    · intro hh
      exact hnf (by
        have := List.append_cancel_left hh
        simpa using this)
  · exact FS.lookup_write_self _ (paperDir ++ ["library.bib"]) bib.content

/-- Witness for C6 at a concrete sanitised name that differs from the
fallback (the identity sanitiser is nonempty on every filename that passed
the extension check, since such a filename contains a dot). -/
theorem c6_witness :
    (stageBib sfId ⟨"refs.bib", "B"⟩ ["w", "paperFiles"] ⟨[], []⟩).lookup
      (["w", "paperFiles"] ++ [sfId "refs.bib"]) = some "B" ∧
    (stageBib sfId ⟨"refs.bib", "B"⟩ ["w", "paperFiles"] ⟨[], []⟩).lookup
      (["w", "paperFiles", "library.bib"]) = some "B" := by
  have hsf : sanitizerNonemptyOnBib sfId := by
    intro s h hs
    have hs' : s = "" := hs
    rw [hs'] at h
    exact absurd h (by decide)
  have h := c6_both_names_present sfId ⟨"refs.bib", "B"⟩
    ["w", "paperFiles"] ⟨[], []⟩ hsf rfl (by decide)
  simpa using h

-- ======================================================================
-- C10: the fallback bibliography name always exists after staging
-- ======================================================================

/-- C10: when the bibliography filename sanitises to the empty string the
upload is saved directly under library.bib and staging performs exactly that
one write; and for every accepted request, after staging a file under the
fallback name exists in the manuscript directory with the uploaded bytes. -/
theorem c10_fallback_always_present (sf : String → String) (bib : Upload)
    (paperDir : List String) (fs : FS) :
    (sf bib.filename = "" →
      stageBib sf bib paperDir fs =
        fs.write (paperDir ++ ["library.bib"]) bib.content) ∧
    (stageBib sf bib paperDir fs).lookup (paperDir ++ ["library.bib"]) =
      some bib.content := by
  constructor
  · intro h
    unfold stageBib
    simp [h]
  · unfold stageBib
    by_cases h : sf bib.filename = ""
    · simp [h, FS.lookup_write_self]
    · by_cases h2 : sf bib.filename = "library.bib"
      · simp [h, h2, FS.lookup_write_self]
      · simp [h, h2, FS.lookup_write_self]

/-- Witness for C10 at an empty sanitised name. -/
theorem c10_witness :
    stageBib (fun _ : String => "") ⟨"###.bib", "B2"⟩ ["w", "paperFiles"]
        ⟨[], []⟩ =
      FS.write ⟨[], []⟩ (["w", "paperFiles"] ++ ["library.bib"]) "B2" ∧
    (stageBib (fun _ : String => "") ⟨"###.bib", "B2"⟩ ["w", "paperFiles"]
        ⟨[], []⟩).lookup (["w", "paperFiles"] ++ ["library.bib"]) = some "B2" :=
  ⟨(c10_fallback_always_present (fun _ : String => "") ⟨"###.bib", "B2"⟩
      ["w", "paperFiles"] ⟨[], []⟩).1 rfl,
   (c10_fallback_always_present (fun _ : String => "") ⟨"###.bib", "B2"⟩
      ["w", "paperFiles"] ⟨[], []⟩).2⟩

-- ======================================================================
-- C9: the three missing-upload messages
-- ======================================================================

/-- C9: for each of the three required uploads missing independently, the
handler renders the page with exactly the missing-file message naming that
upload, checked in the order manuscript, bibliography, figure archive. -/
theorem c9_missing_upload_messages (sf : String → String) (o : Oracle)
    (req : Req) (appRoot work : List String) (fs : FS)
    (hm : req.method = "POST") :
    (req.md_file = none →
      index sf o req appRoot work fs =
        (.page (some "Missing .md file.") none, fs)) ∧
    (∀ md, req.md_file = some md → md.filename ≠ "" → req.bib_file = none →
      index sf o req appRoot work fs =
        (.page (some "Missing .bib file.") none, fs)) ∧
    (∀ md bib, req.md_file = some md → md.filename ≠ "" →
      req.bib_file = some bib → bib.filename ≠ "" → req.fig_zip = none →
      index sf o req appRoot work fs =
        (.page (some "Missing figures .zip file.") none, fs)) := by
  refine ⟨?_, ?_, ?_⟩
  · intro h1
    simp [index, hm, h1]
  · intro md h1 h2 h3
    simp [index, hm, h1, h2, h3]
  · intro md bib h1 h2 h3 h4 h5
    simp [index, hm, h1, h2, h3, h4, h5]

/-- Witness for C9: a request missing only the bibliography upload. -/
theorem c9_witness :
    index sfId oracleAllOk ⟨"POST", some ⟨"paper.md", "MD"⟩, none, none⟩
        ["approot"] ["w"] ⟨[], []⟩ =
      (.page (some "Missing .bib file.") none, ⟨[], []⟩) :=
  (c9_missing_upload_messages sfId oracleAllOk
      ⟨"POST", some ⟨"paper.md", "MD"⟩, none, none⟩ ["approot"] ["w"]
      ⟨[], []⟩ rfl).2.1 ⟨"paper.md", "MD"⟩ rfl (by decide) rfl

-- ======================================================================
-- C3: the ephemeral workspace is gone on every exit path
-- ======================================================================

/-- C3: for every request that passes validation and so reaches workspace
creation, nothing under the workspace directory (the directory itself
included) remains on disk when the handler returns, whatever the outcome of
the try body (success, missing asset, path traversal, tool failure or
missing artifact), because the TemporaryDirectory scope removes the whole
tree on every exit. -/
theorem c3_workspace_destroyed (sf : String → String) (o : Oracle) (req : Req)
    (appRoot work : List String) (fs : FS) (md bib : Upload) (fz : ZipUpload)
    (hm : req.method = "POST")
    (h1 : req.md_file = some md) (h2 : md.filename ≠ "")
    (h3 : req.bib_file = some bib) (h4 : bib.filename ≠ "")
    (h5 : req.fig_zip = some fz) (h6 : fz.filename ≠ "")
    (h7 : allowed md.filename ["md"] = true)
    (h8 : allowed bib.filename ["bib"] = true)
    (h9 : allowed fz.filename ["zip"] = true)
    (p : List String) (hp : work.isPrefixOf p = true) :
    (index sf o req appRoot work fs).2.lookup p = none ∧
    p ∉ (index sf o req appRoot work fs).2.dirs := by
  simp only [index, hm, h1, h2, h3, h4, h5, h6, h7, h8, h9]
  have hg : (("POST" : String) = "GET") = False := by simp
  simp only [hg, if_false, ne_eq, not_false_eq_true, if_neg, Bool.true_eq_false]
  cases htb : tryBody sf o md bib fz.entries appRoot work
      ((fs.mkdir work).mkdir (work ++ ["paperFiles"])) with
  | error ef =>
      obtain ⟨e, f⟩ := ef
      simp only []
      exact ⟨FS.lookup_removeTree f work p hp,
             FS.not_mem_dirs_removeTree f work p hp⟩
  | ok v =>
      obtain ⟨b, f⟩ := v
      simp only []
      exact ⟨FS.lookup_removeTree f work p hp,
             FS.not_mem_dirs_removeTree f work p hp⟩

/-- Witness for C3: a concrete valid request whose first compile pass fails;
nothing at or below the workspace root survives the handler. -/
theorem c3_witness :
    (index sfId oracleLatex1Fails reqValid ["approot"] ["w"] fsAssets).2.lookup
      ["w"] = none ∧
    ["w"] ∉ (index sfId oracleLatex1Fails reqValid ["approot"] ["w"]
      fsAssets).2.dirs :=
  c3_workspace_destroyed sfId oracleLatex1Fails reqValid ["approot"] ["w"]
    fsAssets ⟨"paper.md", "MD"⟩ ⟨"library.bib", "BIB"⟩
    ⟨"figs.zip", [⟨["result_plots", "a.png"], false, false, "PNG"⟩]⟩
    rfl rfl (by decide) rfl (by decide) rfl (by decide) rfl rfl rfl
    ["w"] rfl

-- ======================================================================
-- C5: artifact postcondition check and the success response
-- ======================================================================

/-- C5: when the pipeline step has completed without error, the handler
fails with the ArtifactMissing error (its own message and an empty log,
distinct from a ToolFailure page) when the artifact is absent from the
output subtree, and otherwise returns its fully read bytes as the response
payload with the fixed download name paper.pdf and the fixed content type
application/pdf. -/
theorem c5_artifact_check_and_response (sf : String → String) (o : Oracle)
    (req : Req) (appRoot work : List String) (fs : FS) (md bib : Upload)
    (fz : ZipUpload) (fs2 : FS)
    (hm : req.method = "POST")
    (h1 : req.md_file = some md) (h2 : md.filename ≠ "")
    (h3 : req.bib_file = some bib) (h4 : bib.filename ≠ "")
    (h5 : req.fig_zip = some fz) (h6 : fz.filename ≠ "")
    (h7 : allowed md.filename ["md"] = true)
    (h8 : allowed bib.filename ["bib"] = true)
    (h9 : allowed fz.filename ["zip"] = true)
    (hok : stagePipeline sf o md bib fz.entries appRoot work
      ((fs.mkdir work).mkdir (work ++ ["paperFiles"])) = .ok fs2) :
    (fs2.lookup (pdfPath work) = none →
      index sf o req appRoot work fs =
        (.page (some "PDF was not generated.") (some ""),
         fs2.removeTree work)) ∧
    (∀ b, fs2.lookup (pdfPath work) = some b →
      index sf o req appRoot work fs =
        (.file b "paper.pdf" "application/pdf", fs2.removeTree work)) := by
  simp only [index, hm, h1, h2, h3, h4, h5, h6, h7, h8, h9]
  have hg : (("POST" : String) = "GET") = False := by simp
  simp only [hg, if_false, ne_eq, not_false_eq_true, Bool.true_eq_false]
  constructor
  · intro hnone
    simp [tryBody, hok, hnone, Err.message, Err.diagnosticLog]
  · intro b hb
    simp [tryBody, hok, hb]

/-- Witness for C5: a concrete valid run where every tool exits zero but no
pdf is written, hence the ArtifactMissing page with an empty log. -/
theorem c5_witness :
    (index sfId oracleAllOk reqValid ["approot"] ["w"] fsAssets).1 =
      .page (some "PDF was not generated.") (some "") :=
  congrArg Prod.fst
    ((c5_artifact_check_and_response sfId oracleAllOk reqValid ["approot"]
        ["w"] fsAssets ⟨"paper.md", "MD"⟩ ⟨"library.bib", "BIB"⟩
        ⟨"figs.zip", [⟨["result_plots", "a.png"], false, false, "PNG"⟩]⟩ _
        rfl rfl (by decide) rfl (by decide) rfl (by decide) rfl rfl rfl
        rfl).1 rfl)

-- ======================================================================
-- C2: extraction of archives all of whose entries resolve inside
-- ======================================================================

theorem lookup_extractAll_of_not_target (entries : List ZipEntry)
    (dest p : List String) :
    ∀ fs : FS, p ∉ entries.map (extractTarget dest) →
      (extractAll entries dest fs).lookup p = fs.lookup p := by
  induction entries with
  | nil => intro fs _; rfl
  | cons e rest ih =>
      intro fs h
      have hne : p ≠ extractTarget dest e := fun hh => h (by simp [hh])
      have hrest : p ∉ rest.map (extractTarget dest) := fun hh =>
        h (by simp [hh])
      have hstep : extractAll (e :: rest) dest fs =
          extractAll rest dest
            (if e.isDir then fs.mkdir (extractTarget dest e)
             else fs.write (extractTarget dest e) e.content) := rfl
      rw [hstep]
      by_cases hd : e.isDir = true
      · rw [if_pos hd, ih _ hrest, FS.lookup_mkdir]
      · rw [if_neg hd, ih _ hrest, FS.lookup_write_ne _ _ _ _ hne]

theorem mem_dirs_extractAll (entries : List ZipEntry) (dest d : List String) :
    ∀ fs : FS, d ∈ fs.dirs → d ∈ (extractAll entries dest fs).dirs := by
  induction entries with
  | nil => intro fs h; exact h
  | cons e rest ih =>
      intro fs h
      have hstep : extractAll (e :: rest) dest fs =
          extractAll rest dest
            (if e.isDir then fs.mkdir (extractTarget dest e)
             else fs.write (extractTarget dest e) e.content) := rfl
      rw [hstep]
      apply ih
      by_cases hd : e.isDir = true
      · rw [if_pos hd]; exact List.mem_cons_of_mem _ h
      · rw [if_neg hd]; exact h

theorem extractAll_entry_present (entries : List ZipEntry)
    (dest : List String) :
    ∀ fs : FS, (entries.map (extractTarget dest)).Nodup →
      ∀ e ∈ entries,
        (e.isDir = false →
          (extractAll entries dest fs).lookup (extractTarget dest e) =
            some e.content) ∧
        (e.isDir = true →
          extractTarget dest e ∈ (extractAll entries dest fs).dirs) := by
  induction entries with
  | nil => intro fs _ e he; cases he
  | cons x rest ih =>
      intro fs hnd e he
      have hnd' : extractTarget dest x ∉ rest.map (extractTarget dest) ∧
          (rest.map (extractTarget dest)).Nodup := by
        rw [List.map_cons] at hnd
        exact List.nodup_cons.mp hnd
      have hstep : extractAll (x :: rest) dest fs =
          extractAll rest dest
            (if x.isDir then fs.mkdir (extractTarget dest x)
             else fs.write (extractTarget dest x) x.content) := rfl
      rcases List.mem_cons.mp he with rfl | hmem
      · constructor
        · intro hfile
          rw [hstep, if_neg (by rw [hfile]; exact Bool.false_ne_true),
            lookup_extractAll_of_not_target rest dest _ _ hnd'.1]
          exact FS.lookup_write_self _ _ _
        · intro hdir
          rw [hstep, if_pos hdir]
          exact mem_dirs_extractAll rest dest _ _ (List.mem_cons_self _ _)
      · rw [hstep]
        exact ih _ hnd'.2 e hmem

/-- C2 fails as stated on the code: an archive may hold two entries with the
same name; both resolve inside the destination and extraction succeeds, but
the later entry overwrites the earlier one, so the earlier entry does not
appear on disk unchanged. -/
theorem c2_counterexample :
    ([⟨["dup.txt"], false, false, "first"⟩,
      ⟨["dup.txt"], false, false, "second"⟩] : List ZipEntry).all
        (memberSafe ["d"]) = true ∧
    (match safeExtractZip
        [⟨["dup.txt"], false, false, "first"⟩,
         ⟨["dup.txt"], false, false, "second"⟩] ["d"] ⟨[], []⟩ with
     | .ok f => f.lookup (extractTarget ["d"] ⟨["dup.txt"], false, false, "first"⟩)
     | .error _ => none) = some "second" ∧
    (some "second" : Option String) ≠ some "first" := by
  refine ⟨by decide, by rfl, by decide⟩

/-- C2 amended: for every archive all of whose entries resolve inside the
destination and whose entries occupy pairwise distinct target paths (the
spec leaves name collisions undisambiguated), extraction succeeds and every
entry appears on disk unchanged at its target inside the destination: a file
entry with its exact bytes, a directory entry as a directory. -/
theorem c2_amended_extract_verbatim (entries : List ZipEntry)
    (dest : List String) (fs : FS)
    (hsafe : entries.all (memberSafe dest) = true)
    (hnodup : (entries.map (extractTarget dest)).Nodup) :
    safeExtractZip entries dest fs = .ok (extractAll entries dest fs) ∧
    ∀ e ∈ entries,
      (e.isDir = false →
        (extractAll entries dest fs).lookup (extractTarget dest e) =
          some e.content) ∧
      (e.isDir = true →
        extractTarget dest e ∈ (extractAll entries dest fs).dirs) := by
  constructor
  · simp [safeExtractZip, hsafe]
  · exact extractAll_entry_present entries dest fs hnodup

/-- Witness for the amended C2 at a concrete two-entry archive. -/
theorem c2_witness :
    safeExtractZip [⟨["figs", "a.png"], false, false, "PNG"⟩,
        ⟨["figs"], false, true, ""⟩] ["d"] ⟨[], []⟩ =
      .ok (extractAll [⟨["figs", "a.png"], false, false, "PNG"⟩,
        ⟨["figs"], false, true, ""⟩] ["d"] ⟨[], []⟩) ∧
    (extractAll [⟨["figs", "a.png"], false, false, "PNG"⟩,
        ⟨["figs"], false, true, ""⟩] ["d"] ⟨[], []⟩).lookup
      (extractTarget ["d"] ⟨["figs", "a.png"], false, false, "PNG"⟩) =
      some "PNG" := by
  have h := c2_amended_extract_verbatim
    [⟨["figs", "a.png"], false, false, "PNG"⟩, ⟨["figs"], false, true, ""⟩]
    ["d"] ⟨[], []⟩ (by decide) (by decide)
  exact ⟨h.1, (h.2 ⟨["figs", "a.png"], false, false, "PNG"⟩ (by decide)).1 rfl⟩

-- ======================================================================
-- C4: five invocations in strict order, fail-fast, diagnostics
-- ======================================================================

/-- C4: the pipeline runner starts at most the five invocations of
pipelineInvs, in that strict order and all from the workspace root; the
first invocation exiting non-zero aborts the run right there (its invocation
is the last of the trace, nothing later is started, nothing is retried) and
the error surfaced carries exactly that invocation, its exit status and its
captured stdout and stderr as the sole diagnostic text; when all five exit
zero the run succeeds with the full trace. -/
theorem c4_five_invocations_failfast (o : Oracle) (work paperDir : List String)
    (fs : FS) :
    (runConversion o work paperDir fs).2 <+: pipelineInvs work paperDir ∧
    (∀ i ∈ (runConversion o work paperDir fs).2, i.cwd = work) ∧
    (o.pandoc.exitCode ≠ 0 →
      runConversion o work paperDir fs =
        (.error (.toolFailure (pandocCmd paperDir) o.pandoc.exitCode
            o.pandoc.stdout o.pandoc.stderr, afterPandocFS o work fs),
         (pipelineInvs work paperDir).take 1)) ∧
    (∀ t, o.pandoc.exitCode = 0 →
      (afterPandocFS o work fs).lookup (texPath work) = some t →
      ((o.latex1.exitCode ≠ 0 →
        ∃ f, runConversion o work paperDir fs =
          (.error (.toolFailure latexCmd o.latex1.exitCode o.latex1.stdout
              o.latex1.stderr, f), (pipelineInvs work paperDir).take 2)) ∧
       (o.latex1.exitCode = 0 → o.bibtex.exitCode ≠ 0 →
        ∃ f, runConversion o work paperDir fs =
          (.error (.toolFailure bibtexCmd o.bibtex.exitCode o.bibtex.stdout
              o.bibtex.stderr, f), (pipelineInvs work paperDir).take 3)) ∧
       (o.latex1.exitCode = 0 → o.bibtex.exitCode = 0 →
        o.latex2.exitCode ≠ 0 →
        ∃ f, runConversion o work paperDir fs =
          (.error (.toolFailure latexCmd o.latex2.exitCode o.latex2.stdout
              o.latex2.stderr, f), (pipelineInvs work paperDir).take 4)) ∧
       (o.latex1.exitCode = 0 → o.bibtex.exitCode = 0 →
        o.latex2.exitCode = 0 → o.latex3.exitCode ≠ 0 →
        ∃ f, runConversion o work paperDir fs =
          (.error (.toolFailure latexCmd o.latex3.exitCode o.latex3.stdout
              o.latex3.stderr, f), pipelineInvs work paperDir)) ∧
       (o.latex1.exitCode = 0 → o.bibtex.exitCode = 0 →
        o.latex2.exitCode = 0 → o.latex3.exitCode = 0 →
        ∃ f, runConversion o work paperDir fs =
          (.ok f, pipelineInvs work paperDir)))) := by
  refine ⟨?_, ?_, ?_, ?_⟩
  · by_cases hp : o.pandoc.exitCode = 0
    · rcases hl : (afterPandocFS o work fs).lookup (texPath work) with _ | t
      · simp only [runConversion, hp, hl, if_pos rfl]
        simp [pipelineInvs]
      · by_cases h1 : o.latex1.exitCode = 0
        · by_cases hb : o.bibtex.exitCode = 0
          · by_cases h2 : o.latex2.exitCode = 0
            · by_cases h3 : o.latex3.exitCode = 0
              · simp only [runConversion, hp, hl, h1, hb, h2, h3]
                simp [pipelineInvs]
              · simp only [runConversion, hp, hl, h1, hb, h2, if_neg h3]
                simp [h3, pipelineInvs]
            · simp only [runConversion, hp, hl, h1, hb, if_neg h2]
              simp [h2, pipelineInvs]
          · simp only [runConversion, hp, hl, h1, if_neg hb]
            simp [hb, pipelineInvs]
        · simp only [runConversion, hp, hl, if_neg h1]
          simp [h1, pipelineInvs]
    · simp only [runConversion, if_neg hp]
      simp [hp, pipelineInvs]
  · by_cases hp : o.pandoc.exitCode = 0
    · rcases hl : (afterPandocFS o work fs).lookup (texPath work) with _ | t
      · simp only [runConversion, hp, hl, if_pos rfl]
        simp
      · by_cases h1 : o.latex1.exitCode = 0
        · by_cases hb : o.bibtex.exitCode = 0
          · by_cases h2 : o.latex2.exitCode = 0
            · by_cases h3 : o.latex3.exitCode = 0
              · simp only [runConversion, hp, hl, h1, hb, h2, h3]
                simp
              · simp only [runConversion, hp, hl, h1, hb, h2, if_neg h3]
                simp [h3]
            · simp only [runConversion, hp, hl, h1, hb, if_neg h2]
              simp [h2]
          · simp only [runConversion, hp, hl, h1, if_neg hb]
            simp [hb]
        · simp only [runConversion, hp, hl, if_neg h1]
          simp [h1]
    · simp only [runConversion, if_neg hp]
      simp [hp]
  · intro hp
    simp [runConversion, hp, pipelineInvs]
  · intro t hp hl
    refine ⟨?_, ?_, ?_, ?_, ?_⟩
    · intro h1
      simp only [runConversion, hp, hl, if_neg h1]
      simp [h1, pipelineInvs]
    · intro h1 hb
      simp only [runConversion, hp, hl, h1, if_neg hb]
      simp [hb, pipelineInvs]
    · intro h1 hb h2
      simp only [runConversion, hp, hl, h1, hb, if_neg h2]
      simp [h2, pipelineInvs]
    · intro h1 hb h2 h3
      simp only [runConversion, hp, hl, h1, hb, h2, if_neg h3]
      simp [h3, pipelineInvs]
    · intro h1 hb h2 h3
      simp only [runConversion, hp, hl, h1, hb, h2, h3]
      simp [pipelineInvs]

/-- Witness for C4: a concrete run whose first compile pass exits 1; the
trace stops after two invocations and the error carries that pass and its
captured output. -/
theorem c4_witness :
    ∃ f, runConversion oracleLatex1Fails ["w"] ["w", "paperFiles"] ⟨[], []⟩ =
      (.error (.toolFailure latexCmd 1 "latex out" "latex err", f),
       (pipelineInvs ["w"] ["w", "paperFiles"]).take 2) :=
  ((c4_five_invocations_failfast oracleLatex1Fails ["w"] ["w", "paperFiles"]
      ⟨[], []⟩).2.2.2 "T" rfl rfl).1 (by decide)

-- ======================================================================
-- C7: the staged link set over the manuscript directory entries
-- ======================================================================

theorem FS.pathExists_write_mono (fs : FS) (p q : List String) (c : String)
    (h : fs.pathExists p = true) : (fs.write q c).pathExists p = true := by
  by_cases hpq : p = q
  · subst hpq
    simp [FS.pathExists, FS.lookup_write_self]
  · simp only [FS.pathExists, FS.lookup_write_ne _ _ _ _ hpq, FS.dirs_write]
    exact h

theorem FS.pathExists_write_ne (fs : FS) (p q : List String) (c : String)
    (h : p ≠ q) : (fs.write q c).pathExists p = fs.pathExists p := by
  simp only [FS.pathExists, FS.lookup_write_ne _ _ _ _ h, FS.dirs_write]

theorem linkLoop_links_shape (srcDir workDir : List String)
    (l : List String) :
    ∀ fs : FS, ∀ t ∈ (linkLoop srcDir workDir l fs).1,
      ∃ n ∈ l, t = workDir ++ [n] ∧
        ¬(pathSuffix n = ".md" ∨ pathSuffix n = ".bib") ∧
        fs.pathExists t = false := by
  induction l with
  | nil => intro fs t ht; cases ht
  | cons name rest ih =>
      intro fs t ht
      by_cases hc : pathSuffix name = ".md" ∨ pathSuffix name = ".bib"
      · rw [linkLoop, if_pos hc] at ht
        obtain ⟨n, hn, h1, h2, h3⟩ := ih fs t ht
        exact ⟨n, List.mem_cons_of_mem _ hn, h1, h2, h3⟩
      · by_cases he : fs.pathExists (workDir ++ [name]) = true
        · rw [linkLoop, if_neg hc, if_pos he] at ht
          obtain ⟨n, hn, h1, h2, h3⟩ := ih fs t ht
          exact ⟨n, List.mem_cons_of_mem _ hn, h1, h2, h3⟩
        · rw [linkLoop, if_neg hc, if_neg he] at ht
          rcases List.mem_cons.mp ht with rfl | hmem
          · exact ⟨name, List.mem_cons_self _ _, rfl, hc, by simpa using he⟩
          · obtain ⟨n, hn, h1, h2, h3⟩ := ih _ t hmem
            refine ⟨n, List.mem_cons_of_mem _ hn, h1, h2, ?_⟩
            cases hfs : fs.pathExists t
            · rfl
            · exfalso
              have := FS.pathExists_write_mono fs t (workDir ++ [name])
                (symlinkContent (srcDir ++ [name])) hfs
              rw [this] at h3
              cases h3

theorem linkLoop_lookup_of_not_mem (srcDir workDir : List String)
    (l : List String) :
    ∀ fs : FS, ∀ p, p ∉ (linkLoop srcDir workDir l fs).1 →
      (linkLoop srcDir workDir l fs).2.lookup p = fs.lookup p := by
  induction l with
  | nil => intro fs p _; rfl
  | cons name rest ih =>
      intro fs p hp
      by_cases hc : pathSuffix name = ".md" ∨ pathSuffix name = ".bib"
      · rw [linkLoop, if_pos hc] at hp ⊢
        exact ih fs p hp
      · by_cases he : fs.pathExists (workDir ++ [name]) = true
        · rw [linkLoop, if_neg hc, if_pos he] at hp ⊢
          exact ih fs p hp
        · rw [linkLoop, if_neg hc, if_neg he] at hp ⊢
          simp only [List.mem_cons, not_or] at hp
          rw [ih _ p hp.2]
          exact FS.lookup_write_ne _ _ _ _ hp.1

theorem linkLoop_created (srcDir workDir : List String) (l : List String) :
    ∀ fs : FS, l.Nodup → ∀ name ∈ l,
      ¬(pathSuffix name = ".md" ∨ pathSuffix name = ".bib") →
      fs.pathExists (workDir ++ [name]) = false →
      (workDir ++ [name]) ∈ (linkLoop srcDir workDir l fs).1 ∧
      (linkLoop srcDir workDir l fs).2.lookup (workDir ++ [name]) =
        some (symlinkContent (srcDir ++ [name])) := by
  induction l with
  | nil => intro fs _ name hn; cases hn
  | cons x rest ih =>
      intro fs hnd name hn hcond hex
      have hnd' := List.nodup_cons.mp hnd
      rcases List.mem_cons.mp hn with rfl | hmem
      · have he : ¬(fs.pathExists (workDir ++ [name]) = true) := by
          rw [hex]; exact Bool.false_ne_true
        rw [linkLoop, if_neg hcond, if_neg he]
        have hnotin : (workDir ++ [name]) ∉
            (linkLoop srcDir workDir rest
              (fs.write (workDir ++ [name])
                (symlinkContent (srcDir ++ [name])))).1 := by
          intro hin
          obtain ⟨n, hnr, heq, _, _⟩ :=
            linkLoop_links_shape srcDir workDir rest _ _ hin
          have : name = n := by
            have := List.append_cancel_left heq
            simpa using this
          exact hnd'.1 (this ▸ hnr)
        refine ⟨List.mem_cons_self _ _, ?_⟩
        rw [linkLoop_lookup_of_not_mem srcDir workDir rest _ _ hnotin]
        exact FS.lookup_write_self _ _ _
      · have hne : name ≠ x := fun hh => hnd'.1 (hh ▸ hmem)
        by_cases hc : pathSuffix x = ".md" ∨ pathSuffix x = ".bib"
        · rw [linkLoop, if_pos hc]
          exact ih fs hnd'.2 name hmem hcond hex
        · by_cases he : fs.pathExists (workDir ++ [x]) = true
          · rw [linkLoop, if_neg hc, if_pos he]
            exact ih fs hnd'.2 name hmem hcond hex
          · rw [linkLoop, if_neg hc, if_neg he]
            have hex1 : (fs.write (workDir ++ [x])
                (symlinkContent (srcDir ++ [x]))).pathExists
                (workDir ++ [name]) = false := by
              rw [FS.pathExists_write_ne]
              · exact hex
              · intro hh
                exact hne (by simpa using List.append_cancel_left hh)
            have h := ih _ hnd'.2 name hmem hcond hex1
            exact ⟨List.mem_cons_of_mem _ h.1, h.2⟩

theorem nodup_dedupKeepFirst (l : List String) : (dedupKeepFirst l).Nodup := by
  have aux : ∀ (l : List String) (acc : List String), acc.Nodup →
      (l.foldl (fun acc x => if x ∈ acc then acc else acc ++ [x]) acc).Nodup := by
    intro l
    induction l with
    | nil => intro acc h; exact h
    | cons x rest ih =>
        intro acc h
        simp only [List.foldl_cons]
        by_cases hx : x ∈ acc
        · rw [if_pos hx]; exact ih acc h
        · rw [if_neg hx]
          apply ih
          simp [List.nodup_append, h, hx]
  exact aux l [] List.nodup_nil

/-- C7 fails as stated on the code: an entry literally named ".md" has a
name ending in the manuscript suffix, but pathlib gives a bare dotfile name
an empty suffix, so the loop does not skip it and a reference bearing its
name is created at the workspace root. -/
theorem c7_counterexample :
    strEndsWith ".md" ".md" = true ∧
    pathSuffix ".md" ≠ ".md" ∧
    (linkPaperAssets ["p"] ["w"]
      ⟨[(["p", ".md"], "data")], [["p"], ["w"]]⟩).1 = [["w", ".md"]] := by
  refine ⟨by decide, by decide, by rfl⟩

/-- C7 amended: for every entry directly inside the manuscript directory
whose pathlib suffix is .md or .bib (a name whose only dot is the leading
one, such as the bare ".md", has no suffix and is not excluded) no reference
is created and the workspace root is untouched at that name; for every other
entry a same-directory reference bearing its name is created at the
workspace root, unless something of that name already exists there, in which
case the entry is skipped silently and the existing file is not
overwritten. -/
theorem c7_amended_staged_link_set (srcDir workDir : List String) (fs : FS)
    (name : String) (hdir : fs.dirs.contains srcDir = true)
    (hmem : name ∈ fs.childNames srcDir) :
    (pathSuffix name = ".md" ∨ pathSuffix name = ".bib" →
      (workDir ++ [name]) ∉ (linkPaperAssets srcDir workDir fs).1 ∧
      (linkPaperAssets srcDir workDir fs).2.lookup (workDir ++ [name]) =
        fs.lookup (workDir ++ [name])) ∧
    (¬(pathSuffix name = ".md" ∨ pathSuffix name = ".bib") →
      (fs.pathExists (workDir ++ [name]) = true →
        (workDir ++ [name]) ∉ (linkPaperAssets srcDir workDir fs).1 ∧
        (linkPaperAssets srcDir workDir fs).2.lookup (workDir ++ [name]) =
          fs.lookup (workDir ++ [name])) ∧
      (fs.pathExists (workDir ++ [name]) = false →
        (workDir ++ [name]) ∈ (linkPaperAssets srcDir workDir fs).1 ∧
        (linkPaperAssets srcDir workDir fs).2.lookup (workDir ++ [name]) =
          some (symlinkContent (srcDir ++ [name])))) := by
  have hif : linkPaperAssets srcDir workDir fs =
      linkLoop srcDir workDir (fs.childNames srcDir) fs := by
    rw [linkPaperAssets, if_pos hdir]
  rw [hif]
  refine ⟨?_, ?_⟩
  · intro hcond
    have hnot : (workDir ++ [name]) ∉
        (linkLoop srcDir workDir (fs.childNames srcDir) fs).1 := by
      intro hin
      obtain ⟨n, _, heq, hnc, _⟩ :=
        linkLoop_links_shape srcDir workDir _ _ _ hin
      have : name = n := by simpa using List.append_cancel_left heq
      exact hnc (this ▸ hcond)
    exact ⟨hnot, linkLoop_lookup_of_not_mem srcDir workDir _ _ _ hnot⟩
  · intro hcond
    refine ⟨?_, ?_⟩
    · intro hex
      have hnot : (workDir ++ [name]) ∉
          (linkLoop srcDir workDir (fs.childNames srcDir) fs).1 := by
        intro hin
        obtain ⟨n, _, heq, _, hfalse⟩ :=
          linkLoop_links_shape srcDir workDir _ _ _ hin
        rw [hex] at hfalse
        cases hfalse
      exact ⟨hnot, linkLoop_lookup_of_not_mem srcDir workDir _ _ _ hnot⟩
    · intro hex
      exact linkLoop_created srcDir workDir (fs.childNames srcDir) fs
        (nodup_dedupKeepFirst _) name hmem hcond hex

/-- Witness for the amended C7: a figure entry is linked at the workspace
root with the symlink content pointing into the manuscript directory. -/
theorem c7_witness :
    (["w", "fig.png"] ∈ (linkPaperAssets ["p"] ["w"]
      ⟨[(["p", "fig.png"], "data")], [["p"], ["w"]]⟩).1) ∧
    (linkPaperAssets ["p"] ["w"]
      ⟨[(["p", "fig.png"], "data")], [["p"], ["w"]]⟩).2.lookup
      ["w", "fig.png"] = some (symlinkContent ["p", "fig.png"]) :=
  ((c7_amended_staged_link_set ["p"] ["w"]
      ⟨[(["p", "fig.png"], "data")], [["p"], ["w"]]⟩ "fig.png" rfl
      (by decide)).2 (by decide)).2 rfl
